import Mathlib

/-!
Verification of the style-level metrics pipeline of the Dashboard repository.

Modelling conventions (shallow embedding):
* Text is modelled as a list of Unicode code points (`Str := List Nat`);
  `s2l` converts a Lean string literal to this form.  Python `str.lower`
  is modelled on the ASCII range (the only range the data uses), and
  `str.strip` removes the four common whitespace code points.
* Calendar dates are modelled as proleptic ordinals (`Int`), matching the
  `toordinal` representation the source itself uses; `pd.NaT` (an
  unparseable date) is `Option.none`.
* Python floats are modelled as exact rationals; a float literal such as
  `123.0` is the pair `PyVal.num m e` denoting `m / 10 ^ e`, which is
  exact for every binary float.  `float(s)` string parsing is modelled by
  `parseFloat` on the grammar `[sign] digits [. digits]`; the exotic
  forms (exponents, underscores, inf and nan) that the source would also
  accept are not needed by any claim.
* The pipeline keeps all tables in memory; each builder is a pure
  function of the tables and the parameter record, which is how this
  development represents it.
-/

/-- Text: a list of Unicode code points. -/
abbrev Str := List Nat

/-- Convert a Lean string literal to the code-point model. -/
def s2l (s : String) : Str := s.data.map Char.toNat

/-- Whitespace test for `str.strip` (space, tab, newline, carriage return). -/
def isSpaceC (c : Nat) : Bool := c = 32 || c = 9 || c = 10 || c = 13

/-- ASCII decimal digit test. -/
def isDigitC (c : Nat) : Bool := 48 ≤ c && c ≤ 57

/-- Python `str.lower` on one character (ASCII range). -/
def lowerC (c : Nat) : Nat := if 65 ≤ c ∧ c ≤ 90 then c + 32 else c

/-- Python `str.lower`. -/
def lowerS (s : Str) : Str := s.map lowerC

/-- Python `str.strip`: drop leading and trailing whitespace. -/
def strip (s : Str) : Str :=
  ((s.dropWhile isSpaceC).reverse.dropWhile isSpaceC).reverse

/-- Value of a digit string read most-significant first
(`int("d1d2...")` on an all-digit string). -/
def natFromDigits (s : Str) : Nat := s.foldl (fun a c => 10 * a + (c - 48)) 0

/-- Little-endian base-ten digits, computed with explicit fuel so that the
kernel can evaluate it; agrees with `Nat.digits 10` when the fuel is
sufficient (`digitsLE_eq_digits`). -/
def digitsLE (fuel n : Nat) : List Nat :=
  match fuel, n with
  | 0, _ => []
  | _ + 1, 0 => []
  | f + 1, n + 1 => ((n + 1) % 10) :: digitsLE f ((n + 1) / 10)

/-- Decimal rendering of a natural number (`str(n)`). -/
def renderNat (n : Nat) : Str :=
  if n = 0 then [48] else ((digitsLE n n).map (fun d => 48 + d)).reverse

/-- Decimal rendering of an integer (`str(i)`). -/
def renderInt (i : Int) : Str :=
  if i < 0 then 45 :: renderNat i.natAbs else renderNat i.natAbs

/-- Split a string at the first dot (code point 46), returning the part
before it and, when a dot is present, the part after it. -/
def splitDot : Str → Str × Option Str
  | [] => ([], none)
  | c :: rest =>
    if c = 46 then ([], some rest)
    else
      let p := splitDot rest
      (c :: p.1, p.2)

/-- Result of parsing a decimal numeral: sign, integer-part value,
fraction-part value, and fraction width, denoting
`(-1 if neg) * (ip + fp / 10 ^ w)`.  Kept in integer form so that every
pipeline function stays kernel-computable. -/
structure DecNum where
  neg : Bool
  ip : Nat
  fp : Nat
  w : Nat
deriving DecidableEq

/-- Parse an unsigned decimal numeral `digits [. digits]` with at least one
digit, as Python `float` does on this fragment. -/
def parseUnsigned (s : Str) : Option (Nat × Nat × Nat) :=
  match splitDot s with
  | (ip, none) =>
    if ip.all isDigitC ∧ ip ≠ [] then some (natFromDigits ip, 0, 0) else none
  | (ip, some fp) =>
    if ip.all isDigitC ∧ fp.all isDigitC ∧ (ip ≠ [] ∨ fp ≠ []) then
      some (natFromDigits ip, natFromDigits fp, fp.length)
    else none

/-- Parse a signed decimal numeral, as Python `float` does on the grammar
`[+|-] digits [. digits]`. -/
def parseDec : Str → Option DecNum
  | [] => none
  | c :: rest =>
    if c = 45 then (parseUnsigned rest).map (fun t => ⟨true, t.1, t.2.1, t.2.2⟩)
    else if c = 43 then (parseUnsigned rest).map (fun t => ⟨false, t.1, t.2.1, t.2.2⟩)
    else (parseUnsigned (c :: rest)).map (fun t => ⟨false, t.1, t.2.1, t.2.2⟩)

/-- Python `float.is_integer` for a parsed numeral: the fractional part is
exactly zero. -/
def decIsInt (p : DecNum) : Bool := p.fp % 10 ^ p.w = 0

/-- Python `int(num)` for a parsed numeral whose fractional part is zero. -/
def decInt (p : DecNum) : Int :=
  let n : Nat := p.ip + p.fp / 10 ^ p.w
  if p.neg then -(n : Int) else (n : Int)

/-- Exact rational value of a parsed numeral (used where the source keeps
the float itself, e.g. `pd.to_numeric`). -/
def decValue (p : DecNum) : ℚ :=
  (if p.neg then -1 else 1) * ((p.ip : ℚ) + (p.fp : ℚ) / (10 : ℚ) ^ p.w)

/-- Source `_normalize_style_id`, numeric branch: if the (stripped) string
parses as a number whose fractional part is exactly zero, replace it by the
integer textual form `str(int(num))`; otherwise keep it. -/
def numReduce (s : Str) : Str :=
  match parseDec s with
  | some p => if decIsInt p then renderInt (decInt p) else s
  | none => s

/-- Remove factors of ten shared between a decimal mantissa and exponent,
used to model the canonical (shortest) form Python prints for a float. -/
def canonDec (m : Int) : Nat → Int × Nat
  | 0 => (m, 0)
  | e + 1 => if m % 10 = 0 then canonDec (m / 10) e else (m, e + 1)

/-- Digits of `n` left-padded with zeros to width `w`. -/
def padDigits (w : Nat) (n : Nat) : Str :=
  List.replicate (w - (renderNat n).length) 48 ++ renderNat n

/-- Python `str` of the float `m / 10 ^ e` (exact decimal in canonical
form; an integral value prints with a trailing `.0`). -/
def renderDec (m : Int) (e : Nat) : Str :=
  let p := canonDec m e
  let a := p.1.natAbs
  let sgn : Str := if p.1 < 0 then [45] else []
  if p.2 = 0 then sgn ++ renderNat a ++ [46, 48]
  else sgn ++ renderNat (a / 10 ^ p.2) ++ [46] ++ padDigits p.2 (a % 10 ^ p.2)

/-- Scalar values reaching `_normalize_style_id`: null (NaN), a string, or
a number; `num m e` denotes the float value `m / 10 ^ e`. -/
inductive PyVal where
  | null : PyVal
  | str : Str → PyVal
  | num : Int → Nat → PyVal
deriving DecidableEq

/-- Python `str(value)` for the scalar values above. -/
def pyStr : PyVal → Str
  | .null => s2l "nan"
  | .str s => s
  | .num m e => renderDec m e

/-- Source `ProjectMProcessor._normalize_style_id`: null maps to the empty
string; otherwise stringify, strip, reduce a trailing-zero decimal to its
integer textual form, and lowercase. -/
def normalize_style_id (v : PyVal) : Str :=
  match v with
  | .null => []
  | v => lowerS (numReduce (strip (pyStr v)))

/-- The string path of `_normalize_style_id` (strip, numeric reduction,
lowercase), shared by the string and number branches. -/
def normStr (t : Str) : Str := lowerS (numReduce (strip t))

/-! Substring matching (Python `in` on strings), used by column detection. -/

/-- Does `hay` start with `needle`. -/
def startsWithS : Str → Str → Bool
  | [], _ => true
  | _ :: _, [] => false
  | c :: n, d :: h => c == d && startsWithS n h

/-- Does `needle` occur contiguously inside `hay` (Python `needle in hay`). -/
def isSubstr (needle : Str) : Str → Bool
  | [] => startsWithS needle []
  | d :: h => startsWithS needle (d :: h) || isSubstr needle h

/-! Cells of a raw table.  A cell is null (NaN), text, a float
(`num m e` denotes `m / 10 ^ e`), or a value that lenient date parsing
accepts, carried as its calendar ordinal.  Date strings are represented by
the `date` constructor directly: the grammar `pd.to_datetime` accepts is
outside the scope of every claim, and only the parsed-or-not outcome
matters to the pipeline. -/
inductive Cell where
  | null : Cell
  | str : Str → Cell
  | num : Int → Nat → Cell
  | date : Int → Cell
deriving DecidableEq

/-- Source `pd.to_datetime(column, errors="coerce")` on one cell:
a parseable date yields its ordinal, anything else NaT. -/
def parseCellDate : Cell → Option Int
  | .date d => some d
  | _ => none

/-- Source `pd.to_numeric(column, errors="coerce")` on one cell. -/
def parseCellNum : Cell → Option ℚ
  | .num m e => some ((m : ℚ) / (10 : ℚ) ^ e)
  | .str s => (parseDec (strip s)).map decValue
  | _ => none

/-- Python `str(x)` on a cell.  A date cell is given an opaque textual
form; style columns are never date-valued in the data this models. -/
def cellStr : Cell → Str
  | .null => s2l "nan"
  | .str s => s
  | .num m e => renderDec m e
  | .date d => renderInt d

/-- View of a cell as the scalar reaching `_normalize_style_id`. -/
def cellPy : Cell → PyVal
  | .null => .null
  | .str s => .str s
  | .num m e => .num m e
  | .date d => .str (renderInt d)

/-- Source `DataImporters` style key: `str(x).strip().lower()` when the
cell is not null, else the empty string (no numeric reduction here). -/
def simpleKey : Cell → Str
  | .null => []
  | c => lowerS (strip (cellStr c))

/-- Cell of a row at column index `i` (missing cells read as null). -/
def cellAt (row : List Cell) (i : Nat) : Cell := row.getD i .null

/-! Column detection, `DataImporters.import_sales_csv` and
`DataImporters.import_returns_csv`: one pass over the columns per role,
binding the first column whose lowercased name contains any candidate. -/

/-- Sales date column candidates. -/
def salesDateCands : List Str :=
  [s2l "created on", s2l "order date", s2l "order_date", s2l "created_on",
   s2l "created date", s2l "date", s2l "order creation date"]

/-- Sales style column candidates. -/
def salesStyleCands : List Str :=
  [s2l "style id", s2l "style_id", s2l "style code", s2l "stylecode",
   s2l "product id", s2l "productid", s2l "product code"]

/-- Sales quantity column candidates (present in `DataImporters` only). -/
def salesQtyCands : List Str :=
  [s2l "qty", s2l "quantity", s2l "units", s2l "order qty", s2l "qty ordered",
   s2l "ordered qty", s2l "item qty"]

/-- Sales price column candidates. -/
def salesPriceCands : List Str :=
  [s2l "final price", s2l "selling price", s2l "selling_price",
   s2l "sale price", s2l "net price", s2l "unit price", s2l "item price",
   s2l "price"]

/-- Returns date column candidates. -/
def returnsDateCands : List Str :=
  [s2l "return_registered_on", s2l "return registered on", s2l "return date",
   s2l "return_date", s2l "registered on", s2l "registered_on",
   s2l "created on", s2l "created_on"]

/-- Returns style column candidates. -/
def returnsStyleCands : List Str :=
  [s2l "style_id", s2l "style id", s2l "style code", s2l "stylecode",
   s2l "product id", s2l "productid"]

/-- Returns quantity column candidates. -/
def returnsQtyCands : List Str :=
  [s2l "quantity", s2l "qty returned", s2l "quantity returned",
   s2l "units returned", s2l "return qty", s2l "qty", s2l "return quantity"]

/-- Index of the first column whose lowercased name contains one of the
candidate substrings. -/
def firstColMatching (cands : List Str) (headers : List Str) : Option Nat :=
  headers.findIdx? (fun h => cands.any (fun cand => isSubstr cand (lowerS h)))

/-- Sales date column: candidate pass, then the fallback pass accepting
any column containing "date". -/
def detectSalesDateCol (headers : List Str) : Option Nat :=
  (firstColMatching salesDateCands headers).orElse
    (fun _ => headers.findIdx? (fun h => isSubstr (s2l "date") (lowerS h)))

/-- Sales style column: candidate pass, then the fallback pass accepting
any column containing "style" or "product". -/
def detectSalesStyleCol (headers : List Str) : Option Nat :=
  (firstColMatching salesStyleCands headers).orElse
    (fun _ => headers.findIdx? (fun h =>
      isSubstr (s2l "style") (lowerS h) || isSubstr (s2l "product") (lowerS h)))

/-- Sales GMV fallback column: any column containing "gmv". -/
def detectGmvCol (headers : List Str) : Option Nat :=
  headers.findIdx? (fun h => isSubstr (s2l "gmv") (lowerS h))

/-- Returns type column: any column containing "status" or
"return reason type". -/
def detectReturnsTypeCol (headers : List Str) : Option Nat :=
  headers.findIdx? (fun h =>
    isSubstr (s2l "status") (lowerS h) || isSubstr (s2l "return reason type") (lowerS h))

/-- Canonical sales record as produced by the importers. -/
structure SalesRow where
  orderDate : Option Int
  styleKey : Str
  netUnits : ℚ
  netGMV : ℚ
deriving DecidableEq

/-- Canonical returns record as produced by the importers. -/
structure ReturnRow where
  returnDate : Option Int
  styleKey : Str
  unitsReturned : ℚ
  returnType : Str
deriving DecidableEq

/-- Per-row transform of `DataImporters.import_sales_csv` once columns are
bound: lenient date, simple style key, quantity from the detected column
defaulting to 1, GMV as units times price, or the gmv fallback column, or 0. -/
def mkSalesRow (di si : Nat) (qi pi gi : Option Nat) (row : List Cell) : SalesRow :=
  let units : ℚ :=
    match qi with
    | some i => (parseCellNum (cellAt row i)).getD 1
    | none => 1
  { orderDate := parseCellDate (cellAt row di)
    styleKey := simpleKey (cellAt row si)
    netUnits := units
    netGMV :=
      match pi with
      | some i => units * ((parseCellNum (cellAt row i)).getD 0)
      | none =>
        match gi with
        | some i => (parseCellNum (cellAt row i)).getD 0
        | none => 0 }

/-- Source `DataImporters.import_sales_csv`: raises when the date or style
role is unresolved, otherwise converts every row. -/
def import_sales_csv (headers : List Str) (rows : List (List Cell)) :
    Except String (List SalesRow) :=
  match detectSalesDateCol headers, detectSalesStyleCol headers with
  | some di, some si =>
    .ok (rows.map (mkSalesRow di si (firstColMatching salesQtyCands headers)
      (firstColMatching salesPriceCands headers) (detectGmvCol headers)))
  | _, _ => .error "Sales CSV must contain Date and Style columns"

/-- Per-row transform of `DataImporters.import_returns_csv` once columns
are bound. -/
def mkReturnRow (di si : Nat) (qi ti : Option Nat) (row : List Cell) : ReturnRow :=
  { returnDate := parseCellDate (cellAt row di)
    styleKey := simpleKey (cellAt row si)
    unitsReturned :=
      match qi with
      | some i => (parseCellNum (cellAt row i)).getD 1
      | none => 1
    returnType :=
      match ti with
      | some i =>
        match cellAt row i with
        | .null => s2l "(Unknown)"
        | c => cellStr c
      | none => s2l "(Unknown)" }

/-- Source `DataImporters.import_returns_csv`: raises when the date or
style role is unresolved (these roles have no fallback pass), otherwise
converts every row. -/
def import_returns_csv (headers : List Str) (rows : List (List Cell)) :
    Except String (List ReturnRow) :=
  match firstColMatching returnsDateCands headers,
      firstColMatching returnsStyleCands headers with
  | some di, some si =>
    .ok (rows.map (mkReturnRow di si (firstColMatching returnsQtyCands headers)
      (detectReturnsTypeCol headers)))
  | _, _ => .error "Returns CSV must contain Date and Style columns"

/-! `ProjectMProcessor` detection (`_detect_sales_columns`): the lowered
column names go into a dict (a later duplicate overwrites an earlier one)
and each pattern is looked up by exact equality, first pattern in list
order winning. -/

/-- Index of the last column whose lowercased name equals `pat`. -/
def lastIdxEq (pat : Str) (headers : List Str) : Option Nat :=
  (headers.reverse.findIdx? (fun h => lowerS h == pat)).map
    (fun i => headers.length - 1 - i)

/-- First pattern (in list order) that matches some column exactly. -/
def exactMatchIdx : List Str → List Str → Option Nat
  | [], _ => none
  | p :: ps, headers => (lastIdxEq p headers).orElse (fun _ => exactMatchIdx ps headers)

/-- `ProjectMProcessor` price patterns (the sales list plus gmv forms). -/
def pmPriceCands : List Str :=
  salesPriceCands ++ [s2l "gmv", s2l "gross gmv", s2l "net amount"]

/-- Source `ProjectMProcessor.import_sales_csv`: exact-match detection,
`_normalize_style_id` for the key, and `NetUnits = 1` for every row. -/
def pm_import_sales_csv (headers : List Str) (rows : List (List Cell)) :
    Except String (List SalesRow) :=
  match exactMatchIdx salesDateCands headers, exactMatchIdx salesStyleCands headers with
  | some di, some si =>
    let pi := exactMatchIdx pmPriceCands headers
    .ok (rows.map (fun row =>
      { orderDate := parseCellDate (cellAt row di)
        styleKey := normalize_style_id (cellPy (cellAt row si))
        netUnits := 1
        netGMV :=
          match pi with
          | some i => (parseCellNum (cellAt row i)).getD 0
          | none => 0 }))
  | _, _ => .error "Sales CSV must contain Date and Style columns"

/-! Status, momentum and tag classification (`BusinessCalculations`). -/

/-- Source `BusinessCalculations.calculate_status`.  The New cutoff is the
literal 60 of the source. -/
def calculate_status (first_date : Option Int) (orders : Nat) (days_live : Int)
    (zero_age : Int) : String :=
  match first_date with
  | none => "Catalog-Only"
  | some _ =>
    if orders = 0 ∧ days_live ≥ zero_age then "Zero-Sale"
    else if days_live ≤ 60 then "New"
    else if orders > 0 then "Active"
    else "Unknown"

/-- Stated from the claim wording of C2, for comparison: the New branch
uses a configurable new-age threshold rather than the literal 60. -/
def status_per_claim (first_date : Option Int) (orders : Nat) (days_live : Int)
    (zero_age new_age : Int) : String :=
  match first_date with
  | none => "Catalog-Only"
  | some _ =>
    if orders = 0 ∧ days_live ≥ zero_age then "Zero-Sale"
    else if days_live ≤ new_age then "New"
    else if orders > 0 then "Active"
    else "Unknown"

/-- Source `BusinessCalculations.calculate_momentum`. -/
def calculate_momentum (orders_recent orders_prev : Nat) : ℚ :=
  if orders_prev = 0 then (if orders_recent > 0 then 1 else 0)
  else ((orders_recent : ℚ) - (orders_prev : ℚ)) / (orders_prev : ℚ)

/-- Source `BusinessCalculations.calculate_watchlist_tag`. -/
def calculate_watchlist_tag (orders_recent orders_prev : Nat) (momentum : ℚ)
    (age_days new_age : Int) (min_orders : Nat) : String :=
  if age_days ≤ new_age then "NEW"
  else if orders_recent ≥ min_orders ∧ orders_prev = 0 then "STARTED"
  else if momentum > (0.15 : ℚ) then "RISING"
  else if momentum < -(0.15 : ℚ) then "FALLING"
  else "FLAT"

/-! Windowed KPIs. -/

/-- Source `BusinessCalculations.calculate_kpis`, total-orders component:
the count of sales records with `OrderDate >= today - window_days` (the
source filter has no upper endpoint; NaT dates never pass). -/
def calculate_kpis_total_orders (sales : List SalesRow) (today window_days : Int) : Nat :=
  (sales.filter (fun r =>
    match r.orderDate with
    | some d => decide (today - window_days ≤ d)
    | none => false)).length

/-- Stated from the claim wording of C4, for comparison: the count over
the closed interval `[today - window, today]`. -/
def claim_total_orders (sales : List SalesRow) (today window_days : Int) : Nat :=
  (sales.filter (fun r =>
    match r.orderDate with
    | some d => decide (today - window_days ≤ d ∧ d ≤ today)
    | none => false)).length

/-! Master table (`ProjectMProcessor.build_master_table`). -/

/-- Pandas `unique`: first occurrence of each distinct value, in order. -/
def uniqueFirstAux [DecidableEq α] : List α → List α → List α
  | _, [] => []
  | seen, a :: l =>
    if a ∈ seen then uniqueFirstAux seen l else a :: uniqueFirstAux (a :: seen) l

/-- Pandas `unique` over a list. -/
def uniqueFirst [DecidableEq α] (l : List α) : List α := uniqueFirstAux [] l

/-- Minimum of a list of ordinals, none when empty (pandas `min` skipping
NaT). -/
def listMinD (l : List Int) : Option Int :=
  l.foldr (fun d acc => match acc with | none => some d | some m => some (min d m)) none

/-- Maximum of a list of ordinals, none when empty. -/
def listMaxD (l : List Int) : Option Int :=
  l.foldr (fun d acc => match acc with | none => some d | some m => some (max d m)) none

/-- Status logic inlined in `ProjectMProcessor.build_master_table`
(lines 258 to 271). -/
def masterStatus (firstOrder : Option Int) (orders : Nat) (today zero_age : Int) : String :=
  match firstOrder with
  | none => "Catalog-Only"
  | some f =>
    if orders = 0 then (if today - f ≥ zero_age then "Zero-Sale" else "New")
    else if today - f ≤ 60 then "New"
    else if orders > 0 then "Active"
    else "Unknown"

/-- One row of the master table. -/
structure MasterRow where
  styleId : PyVal
  styleKey : Str
  orders : Nat
  gmv : ℚ
  firstOrder : Option Int
  lastOrder : Option Int
  unitsReturned : ℚ
  returnPct : ℚ
  status : String
  riskFlag : String
  bucket : String
deriving DecidableEq

/-- Newness bucket from the first-order date. -/
def newnessBucket (firstOrder : Option Int) (today : Int) : String :=
  match firstOrder with
  | none => "Unknown"
  | some f =>
    if today - f ≤ 7 then "0-7d"
    else if today - f ≤ 30 then "8-30d"
    else if today - f ≤ 60 then "31-60d"
    else if today - f ≤ 90 then "61-90d"
    else "91d+"

/-- Metrics stage of `build_master_table` for one style (lines 224 to 307):
joins that style against sales and returns by StyleKey.  Sales rows whose
dates all failed to parse are modelled as having no first order. -/
def masterMetricsRow (sales : List SalesRow) (returns : List ReturnRow)
    (today zero_age : Int) (high_ret : ℚ) (sid : PyVal) (key : Str) : MasterRow :=
  let ss := sales.filter (fun r => r.styleKey == key)
  let orders := ss.length
  let fo := listMinD (ss.filterMap (·.orderDate))
  let ur := ((returns.filter (fun r => r.styleKey == key)).map (·.unitsReturned)).sum
  let rp : ℚ := if orders = 0 then 0 else ur / (orders : ℚ)
  { styleId := sid
    styleKey := key
    orders := orders
    gmv := (ss.map (·.netGMV)).sum
    firstOrder := fo
    lastOrder := listMaxD (ss.filterMap (·.orderDate))
    unitsReturned := ur
    returnPct := rp
    status := masterStatus fo orders today zero_age
    riskFlag := if rp ≥ high_ret then "High Returns" else ""
    bucket := newnessBucket fo today }

/-- Source `ProjectMProcessor.build_master_table`.  `catalogStyles` is the
catalog style column when a catalog is loaded, non-empty, and
`_find_style_column` located one; the universe is its deduplicated raw
values (dropna then unique, normalisation applied after), with a fallback
to the distinct observed sales StyleKeys. -/
def build_master_table (catalogStyles : Option (List Cell))
    (sales : Option (List SalesRow)) (returns : List ReturnRow)
    (today zero_age : Int) (high_ret : ℚ) : List MasterRow :=
  let catRows : List (PyVal × Str) :=
    match catalogStyles with
    | some vals =>
      (uniqueFirst (vals.filter (fun v => v ≠ Cell.null))).map
        (fun v => (cellPy v, normalize_style_id (cellPy v)))
    | none => []
  let styleRows : List (PyVal × Str) :=
    if catRows.isEmpty then
      match sales with
      | some ss => (uniqueFirst (ss.map (·.styleKey))).map (fun k => (PyVal.str k, k))
      | none => []
    else catRows
  styleRows.map (fun p =>
    masterMetricsRow ((sales).getD []) returns today zero_age high_ret p.1 p.2)

/-! Returns split (`ProjectMProcessor.build_returns_type_split`). -/

/-- Case-insensitive RTO classification
(`ReturnType.str.contains("RTO", case=False)`). -/
def containsRTO (t : Str) : Bool := isSubstr (s2l "rto") (lowerS t)

/-- Python `int()` on a rational: truncation toward zero. -/
def ratTrunc (q : ℚ) : Int := q.num.tdiv (q.den : Int)

/-- One row of the returns-type split. -/
structure SplitRow where
  styleId : PyVal
  rtoQty : Int
  returnQty : Int
  totalReturns : Int
  rtoPct : ℚ
  retPct : ℚ
deriving DecidableEq

/-- Returns of one style inside the closed window. -/
def returns_window (returns : List ReturnRow) (today window_days : Int)
    (key : Str) : List ReturnRow :=
  returns.filter (fun r => r.styleKey == key &&
    (match r.returnDate with
     | some d => decide (today - window_days ≤ d ∧ d ≤ today)
     | none => false))

/-- Column labels of the metrics rows that `build_master_table` emits
(data_processor lines 292 to 305, the only place `master_styles` is
written): the loop-local `style_key` is not written into the frame, so
`StyleKey` is not among them. -/
def masterEmittedLabels : List Str :=
  [s2l "Style ID", s2l "FirstUpdated", s2l "Days_Since_FirstUpdate",
   s2l "Newness_Bucket", s2l "Orders", s2l "GMV", s2l "FirstOrderDate",
   s2l "LastOrderDate", s2l "UnitsReturned", s2l "ReturnPct", s2l "Status",
   s2l "RiskFlag"]

/-- Pandas label lookup performed at line 453 of the source,
`style_row["StyleKey"]`, on an emitted master row: the label is not among
the emitted columns, so the lookup raises KeyError for every row.  The
`MasterRow.styleKey` field of this development records the loop-local key
`build_master_table` computes while building the row, not an emitted
column, which is why the lookup here does not consult it. -/
def masterRowStyleKey? (m : MasterRow) : Option Str :=
  if s2l "StyleKey" ∈ masterEmittedLabels then some m.styleKey else none

/-- Per-style body of `build_returns_type_split` (source lines 456 to
482), given the style id and key the loop would read from the master row:
skipped when the style has no returns in the window or a zero total,
otherwise the RTO versus non-RTO partition with truncated quantities and
exact shares.  In the source this code sits after the StyleKey lookup of
line 453, which always fails, so it is dead code there. -/
def split_row (returns : List ReturnRow) (today window_days : Int)
    (sid : PyVal) (key : Str) : Option SplitRow :=
  let rs := returns_window returns today window_days key
  if rs.isEmpty then none
  else
    let rto := ((rs.filter (fun r => containsRTO r.returnType)).map (·.unitsReturned)).sum
    let ret := ((rs.filter (fun r => !containsRTO r.returnType)).map (·.unitsReturned)).sum
    if rto + ret = 0 then none
    else some ⟨sid, ratTrunc rto, ratTrunc ret, ratTrunc (rto + ret),
      rto / (rto + ret), ret / (rto + ret)⟩

/-- Iteration of `build_returns_type_split` over the master rows: each
step first performs the StyleKey label lookup of line 453 and aborts the
whole build (KeyError) when it fails, before the per-style body can
run. -/
def build_returns_split_aux (returns : List ReturnRow) (today window_days : Int) :
    List MasterRow → Except String (List SplitRow)
  | [] => .ok []
  | m :: rest =>
    match masterRowStyleKey? m with
    | none => .error "KeyError: StyleKey"
    | some key =>
      match build_returns_split_aux returns today window_days rest with
      | .error e => .error e
      | .ok tail =>
        match split_row returns today window_days m.styleId key with
        | none => .ok tail
        | some row => .ok (row :: tail)

/-- Source `ProjectMProcessor.build_returns_type_split`: an absent returns
or master table is guarded to an empty result (line 443, modelled by the
empty list); otherwise the loop reads `style_row["StyleKey"]` for each
master row and, because the emitted master rows carry no such column, the
first row aborts the build with KeyError — with a non-empty master table
the function never emits a row. -/
def build_returns_type_split (master : List MasterRow) (returns : List ReturnRow)
    (today window_days : Int) : Except String (List SplitRow) :=
  build_returns_split_aux returns today window_days master

/-! Inventory forecast (`ProjectMProcessor.build_inventory_forecast`).
The forecast is over the reals because of the square root in the safety
stock; the display-only roundings of the source (`round(x, 2)` and
`round(x, 0)` on the listed columns) are not modelled — `Total Required`,
the actionable output, is computed from the unrounded values in the source
exactly as here. -/

/-- One row of the forecast table. -/
structure ForecastRow where
  styleId : PyVal
  avgDaily : ℝ
  grossForecast : ℝ
  netForecast : ℝ
  safetyStock : ℝ
  totalRequired : Int

/-- Sales of one style inside the closed lookback window. -/
def forecast_window_sales (sales : List SalesRow) (today : Int) (lookback : Nat)
    (key : Str) : List SalesRow :=
  sales.filter (fun r => r.styleKey == key &&
    (match r.orderDate with
     | some d => decide (today - (lookback : Int) ≤ d ∧ d ≤ today)
     | none => false))

/-- Source `build_inventory_forecast`, one style: none when the style has
no sales in the lookback window, otherwise the forecast row.  `momentumOf`
is the watchlist lookup by Style ID (`fun _ => none` when no watchlist is
loaded). -/
noncomputable def forecast_row (sales : List SalesRow) (momentumOf : PyVal → Option ℝ)
    (lookback : Nat) (event_days traffic_mult return_rate : ℝ) (use_momentum : Bool)
    (today : Int) (s : PyVal × Str) : Option ForecastRow :=
  let ss := forecast_window_sales sales today lookback s.2
  if ss.isEmpty then none
  else
    let avg : ℝ := (ss.length : ℝ) / (lookback : ℝ)
    let momentum : ℝ := if use_momentum then (momentumOf s.1).getD 0 else 0
    let base := avg * event_days * traffic_mult
    let gross := if use_momentum then base * (1 + max (min momentum 0.5) (-0.3)) else base
    let net := gross * (1 - return_rate)
    let safety := (1.28 : ℝ) * Real.sqrt gross
    some ⟨s.1, avg, gross, net, safety, ⌈net + safety⌉⟩

/-- Source `ProjectMProcessor.build_inventory_forecast` over the style
universe. -/
noncomputable def build_inventory_forecast (styles : List (PyVal × Str))
    (sales : List SalesRow) (momentumOf : PyVal → Option ℝ) (lookback : Nat)
    (event_days traffic_mult return_rate : ℝ) (use_momentum : Bool) (today : Int) :
    List ForecastRow :=
  styles.filterMap
    (forecast_row sales momentumOf lookback event_days traffic_mult return_rate
      use_momentum today)

example : normalize_style_id (.str (s2l "STY123")) = s2l "sty123" := by decide
example : normalize_style_id (.str (s2l " sty123 ")) = s2l "sty123" := by decide
example : normalize_style_id (.num 123 0) = s2l "123" := by decide
example : normalize_style_id (.str (s2l "123.0")) = s2l "123" := by decide
example : normalize_style_id (.str (s2l "123")) = s2l "123" := by decide
example : normalize_style_id .null = [] := by decide
example : normalize_style_id (.num 1005 1) = s2l "100.5" := by decide

/-! Lemmas about decimal rendering and parsing, leading to the
idempotence of the style-key normaliser. -/

theorem digitsLE_eq_digits (fuel : Nat) :
    ∀ n, n ≤ fuel → digitsLE fuel n = Nat.digits 10 n := by
  induction fuel with
  | zero =>
    intro n h
    have hn : n = 0 := by omega
    subst hn; simp [digitsLE]
  | succ f ih =>
    intro n h
    cases n with
    | zero => simp [digitsLE]
    | succ m =>
      rw [digitsLE, ih ((m + 1) / 10) (by
        have := Nat.div_lt_self (Nat.succ_pos m) (by norm_num : 1 < 10)
        omega)]
      rw [Nat.digits_def' (by norm_num : 1 < 10) (Nat.succ_pos m)]

theorem foldr_eq_ofDigits (l : List Nat) :
    List.foldr (fun d a => 10 * a + d) 0 l = Nat.ofDigits 10 l := by
  induction l with
  | nil => simp [Nat.ofDigits]
  | cons a t ih => rw [List.foldr, ih, Nat.ofDigits_cons]; omega

theorem natFromDigits_renderNat (n : Nat) : natFromDigits (renderNat n) = n := by
  by_cases h : n = 0
  · subst h; decide
  · rw [renderNat, if_neg h, digitsLE_eq_digits n n le_rfl]
    unfold natFromDigits
    rw [List.foldl_reverse, List.foldr_map]
    have hfn : (fun (x a : Nat) => 10 * a + (48 + x - 48)) = fun x a => 10 * a + x := by
      funext x a; omega
    rw [hfn, foldr_eq_ofDigits, Nat.ofDigits_digits]

theorem renderNat_digits (n : Nat) : ∀ c ∈ renderNat n, 48 ≤ c ∧ c ≤ 57 := by
  intro c hc
  by_cases h : n = 0
  · subst h; simp [renderNat] at hc; omega
  · rw [renderNat, if_neg h, digitsLE_eq_digits n n le_rfl] at hc
    rw [List.mem_reverse, List.mem_map] at hc
    obtain ⟨d, hd, hdc⟩ := hc
    have := Nat.digits_lt_base (by norm_num : 1 < 10) hd
    omega

theorem renderNat_ne_nil (n : Nat) : renderNat n ≠ [] := by
  by_cases h : n = 0
  · subst h; simp [renderNat]
  · rw [renderNat, if_neg h, digitsLE_eq_digits n n le_rfl]
    simp [Nat.digits_ne_nil_iff_ne_zero, h]

theorem renderInt_chars (i : Int) : ∀ c ∈ renderInt i, c = 45 ∨ (48 ≤ c ∧ c ≤ 57) := by
  intro c hc
  unfold renderInt at hc
  split_ifs at hc
  · rcases List.mem_cons.mp hc with hc | hc
    · left; exact hc
    · right; exact renderNat_digits _ c hc
  · right; exact renderNat_digits _ c hc

theorem splitDot_no_dot (s : Str) (h : ∀ c ∈ s, c ≠ 46) : splitDot s = (s, none) := by
  induction s with
  | nil => rfl
  | cons c t ih =>
    rw [splitDot, if_neg (h c (by simp))]
    rw [ih (fun x hx => h x (by simp [hx]))]

theorem splitDot_decomp (s : Str) :
    s = (splitDot s).1 ++
      (match (splitDot s).2 with | none => [] | some fp => 46 :: fp) := by
  induction s with
  | nil => rfl
  | cons c t ih =>
    by_cases h : c = 46
    · subst h; rw [splitDot]; simp
    · rw [splitDot, if_neg h]
      exact congrArg (c :: ·) ih

theorem parseUnsigned_chars {s : Str} {t : Nat × Nat × Nat}
    (h : parseUnsigned s = some t) : ∀ c ∈ s, c = 46 ∨ (48 ≤ c ∧ c ≤ 57) := by
  intro c hc
  have hd := splitDot_decomp s
  unfold parseUnsigned at h
  rcases hs : splitDot s with ⟨ip, fp?⟩
  rw [hs] at h hd
  cases fp? with
  | none =>
    simp only at h hd
    split_ifs at h with hcond
    · rw [hd, List.append_nil] at hc
      right
      have := List.all_eq_true.mp hcond.1 c hc
      simp [isDigitC] at this; omega
  | some fp =>
    simp only at h hd
    split_ifs at h with hcond
    · rw [hd] at hc
      rcases List.mem_append.mp hc with hc | hc
      · right
        have := List.all_eq_true.mp hcond.1 c hc
        simp [isDigitC] at this; omega
      · rcases List.mem_cons.mp hc with hc | hc
        · left; exact hc
        · right
          have := List.all_eq_true.mp hcond.2.1 c hc
          simp [isDigitC] at this; omega

theorem parseDec_chars {s : Str} {p : DecNum} (h : parseDec s = some p) :
    ∀ c ∈ s, c = 43 ∨ c = 45 ∨ c = 46 ∨ (48 ≤ c ∧ c ≤ 57) := by
  intro c hc
  cases s with
  | nil => simp at hc
  | cons c0 rest =>
    rw [parseDec] at h
    split_ifs at h with h45 h43
    · rcases Option.map_eq_some'.mp h with ⟨t, ht, _⟩
      rcases List.mem_cons.mp hc with hc | hc
      · right; left; omega
      · rcases parseUnsigned_chars ht c hc with h1 | h1
        · right; right; left; exact h1
        · right; right; right; exact h1
    · rcases Option.map_eq_some'.mp h with ⟨t, ht, _⟩
      rcases List.mem_cons.mp hc with hc | hc
      · left; omega
      · rcases parseUnsigned_chars ht c hc with h1 | h1
        · right; right; left; exact h1
        · right; right; right; exact h1
    · rcases Option.map_eq_some'.mp h with ⟨t, ht, _⟩
      rcases parseUnsigned_chars ht c hc with h1 | h1
      · right; right; left; exact h1
      · right; right; right; exact h1

theorem parseUnsigned_renderNat (n : Nat) :
    parseUnsigned (renderNat n) = some (n, 0, 0) := by
  unfold parseUnsigned
  rw [splitDot_no_dot (renderNat n) (fun c hc => by
    have := renderNat_digits n c hc; omega)]
  dsimp only
  rw [if_pos ⟨List.all_eq_true.mpr (fun c hc => by
      have := renderNat_digits n c hc; simp [isDigitC]; omega),
    renderNat_ne_nil n⟩]
  rw [natFromDigits_renderNat]

theorem parseDec_renderInt (i : Int) :
    parseDec (renderInt i) = some ⟨decide (i < 0), i.natAbs, 0, 0⟩ := by
  by_cases hi : i < 0
  · rw [renderInt, if_pos hi, parseDec, if_pos rfl, parseUnsigned_renderNat]
    simp [hi]
  · rw [renderInt, if_neg hi]
    obtain ⟨c, rest, hcr⟩ := List.exists_cons_of_ne_nil (renderNat_ne_nil i.natAbs)
    have hcd : 48 ≤ c ∧ c ≤ 57 := renderNat_digits i.natAbs c (by rw [hcr]; simp)
    rw [hcr, parseDec, if_neg (by omega), if_neg (by omega), ← hcr,
      parseUnsigned_renderNat]
    simp [hi]

theorem decInt_mk (i : Int) : decInt ⟨decide (i < 0), i.natAbs, 0, 0⟩ = i := by
  unfold decInt
  dsimp only
  have h0 : i.natAbs + 0 / 10 ^ 0 = i.natAbs := by norm_num
  by_cases hi : i < 0
  · rw [if_pos (by simpa using hi), h0]
    omega
  · rw [if_neg (by simpa using hi), h0]
    omega

theorem numReduce_renderInt (i : Int) : numReduce (renderInt i) = renderInt i := by
  unfold numReduce
  rw [parseDec_renderInt]
  have hii : decIsInt ⟨decide (i < 0), i.natAbs, 0, 0⟩ = true := by simp [decIsInt]
  simp only [hii, if_true, decInt_mk]

theorem lowerC_idem (c : Nat) : lowerC (lowerC c) = lowerC c := by
  unfold lowerC; split_ifs <;> omega

theorem lowerC_eq_self {c : Nat} (h : c < 65 ∨ 90 < c) : lowerC c = c := by
  unfold lowerC; split_ifs with h1
  · omega
  · rfl

theorem isSpaceC_lowerC (c : Nat) : isSpaceC (lowerC c) = isSpaceC c := by
  unfold lowerC
  split_ifs with h
  · have h1 : isSpaceC (c + 32) = false := by simp [isSpaceC]; omega
    have h2 : isSpaceC c = false := by simp [isSpaceC]; omega
    rw [h1, h2]
  · rfl

theorem lowerS_idem (s : Str) : lowerS (lowerS s) = lowerS s := by
  unfold lowerS
  rw [List.map_map]
  exact List.map_congr_left (fun a _ => lowerC_idem a)

theorem lowerS_eq_self {s : Str} (h : ∀ c ∈ s, c < 65 ∨ 90 < c) : lowerS s = s := by
  unfold lowerS
  induction s with
  | nil => rfl
  | cons a t ih =>
    rw [List.map_cons, lowerC_eq_self (h a (by simp)),
      ih (fun c hc => h c (by simp [hc]))]

theorem dropWhile_idem (p : Nat → Bool) (l : Str) :
    (l.dropWhile p).dropWhile p = l.dropWhile p := by
  induction l with
  | nil => rfl
  | cons a t ih =>
    by_cases h : p a
    · rw [List.dropWhile_cons, if_pos h, ih]
    · rw [List.dropWhile_cons, if_neg h, List.dropWhile_cons, if_neg h]

theorem dropWhile_all_false (p : Nat → Bool) (l : Str)
    (h : ∀ c ∈ l, p c = false) : l.dropWhile p = l := by
  induction l with
  | nil => rfl
  | cons a t ih =>
    rw [List.dropWhile_cons, if_neg (by simp [h a (by simp)])]

theorem dropWhile_first_false (p : Nat → Bool) (l : Str) (a : Nat) (rest : Str)
    (h : l.dropWhile p = a :: rest) : p a = false := by
  induction l with
  | nil => simp at h
  | cons c t ih =>
    by_cases hc : p c
    · rw [List.dropWhile_cons, if_pos hc] at h; exact ih h
    · rw [List.dropWhile_cons, if_neg hc] at h
      cases h; simpa using hc

theorem strip_eq_self_of_noSpace {s : Str} (h : ∀ c ∈ s, isSpaceC c = false) :
    strip s = s := by
  unfold strip
  rw [dropWhile_all_false _ _ h,
    dropWhile_all_false _ _ (fun c hc => h c (List.mem_reverse.mp hc)),
    List.reverse_reverse]

theorem strip_idem (s : Str) : strip (strip s) = strip s := by
  unfold strip
  have h1 : ((s.dropWhile isSpaceC).reverse.dropWhile isSpaceC).reverse.dropWhile
      isSpaceC = ((s.dropWhile isSpaceC).reverse.dropWhile isSpaceC).reverse := by
    cases hdr : ((s.dropWhile isSpaceC).reverse.dropWhile isSpaceC).reverse with
    | nil => simp
    | cons a t =>
      obtain ⟨pre, hpre⟩ :=
        List.dropWhile_suffix (l := (s.dropWhile isSpaceC).reverse) isSpaceC
      have h2 := congrArg List.reverse hpre
      rw [List.reverse_append, List.reverse_reverse] at h2
      rw [hdr] at h2
      have hsd : s.dropWhile isSpaceC = a :: (t ++ pre.reverse) := by
        rw [← h2]; rfl
      have hpa : isSpaceC a = false := dropWhile_first_false isSpaceC s a _ hsd
      rw [List.dropWhile_cons, if_neg (by simp [hpa])]
  rw [h1, List.reverse_reverse, dropWhile_idem]

theorem strip_lowerS (s : Str) : strip (lowerS s) = lowerS (strip s) := by
  unfold strip lowerS
  have hpf : isSpaceC ∘ lowerC = isSpaceC := funext isSpaceC_lowerC
  rw [List.dropWhile_map, hpf, ← List.map_reverse, List.dropWhile_map, hpf,
    ← List.map_reverse]

theorem lower_parse_none {u : Str} (h : ∃ c ∈ u, 65 ≤ c ∧ c ≤ 90) :
    parseDec (lowerS u) = none := by
  obtain ⟨c, hc, hcr⟩ := h
  cases hp : parseDec (lowerS u) with
  | none => rfl
  | some p =>
    have hmem : lowerC c ∈ lowerS u := List.mem_map_of_mem lowerC hc
    have hval : lowerC c = c + 32 := by unfold lowerC; rw [if_pos hcr]
    have := parseDec_chars hp (lowerC c) hmem
    rw [hval] at this
    omega

theorem parse_some_noUpper {u : Str} {p : DecNum} (h : parseDec u = some p) :
    ∀ c ∈ u, c < 65 ∨ 90 < c := by
  intro c hc
  rcases parseDec_chars h c hc with h1 | h1 | h1 | h1 <;> omega

theorem normStr_idem (t : Str) : normStr (normStr t) = normStr t := by
  unfold normStr
  have hsu : strip (strip t) = strip t := strip_idem t
  cases hp : parseDec (strip t) with
  | none =>
    have hnr : numReduce (strip t) = strip t := by unfold numReduce; rw [hp]
    rw [hnr, strip_lowerS, hsu]
    by_cases hup : ∃ c ∈ strip t, 65 ≤ c ∧ c ≤ 90
    · have h2 : parseDec (lowerS (strip t)) = none := lower_parse_none hup
      have h3 : numReduce (lowerS (strip t)) = lowerS (strip t) := by
        unfold numReduce; rw [h2]
      rw [h3, lowerS_idem]
    · push_neg at hup
      have h4 : lowerS (strip t) = strip t :=
        lowerS_eq_self (fun c hc => by have := hup c hc; omega)
      rw [h4, hnr]
      exact h4
  | some p =>
    by_cases hint : decIsInt p
    · have hnr : numReduce (strip t) = renderInt (decInt p) := by
        unfold numReduce; rw [hp]; dsimp only; rw [if_pos hint]
      rw [hnr]
      have hch : ∀ c ∈ renderInt (decInt p), c < 65 ∨ 90 < c := by
        intro c hc; rcases renderInt_chars _ c hc with h | h <;> omega
      have hlow : lowerS (renderInt (decInt p)) = renderInt (decInt p) :=
        lowerS_eq_self hch
      rw [hlow]
      have hns : strip (renderInt (decInt p)) = renderInt (decInt p) :=
        strip_eq_self_of_noSpace (fun c hc => by
          rcases renderInt_chars _ c hc with h | h <;> (simp [isSpaceC]; omega))
      rw [hns, numReduce_renderInt, hlow]
    · have hnr : numReduce (strip t) = strip t := by
        unfold numReduce; rw [hp]; dsimp only; rw [if_neg hint]
      rw [hnr, strip_lowerS, hsu]
      have h4 : lowerS (strip t) = strip t := lowerS_eq_self (parse_some_noUpper hp)
      rw [h4, hnr]
      exact h4

/-- C8: StyleKey normalisation is idempotent: for every scalar input
(string, number, or null), normalising an already-normalised key returns
it unchanged. -/
theorem c8_normalize_idempotent (v : PyVal) :
    normalize_style_id (.str (normalize_style_id v)) = normalize_style_id v := by
  cases v with
  | null =>
    show normalize_style_id (.str []) = []
    decide
  | str s => exact normStr_idem s
  | num m e => exact normStr_idem (renderDec m e)

/-- C9 counterexample: the claim says normalize(123.0) equals "sty123"
(together with normalize("STY123") and normalize(" sty123 ")); in the code
normalize(123.0) is "123", which differs from "sty123", so the claimed
three-way equality is false. -/
theorem c9_counterexample :
    normalize_style_id (.num 123 0) = s2l "123" ∧
    normalize_style_id (.num 123 0) ≠ s2l "sty123" ∧
    normalize_style_id (.num 123 0) ≠ normalize_style_id (.str (s2l "STY123")) := by
  refine ⟨by decide, by decide, by decide⟩

/-- C9 amended: normalize("STY123") and normalize(" sty123 ") both give
"sty123"; a numeric-looking identifier with zero fractional part is
reduced to its integer textual form, so 123.0, "123.0" and "123" all
normalise to "123" (not to "sty123"). -/
theorem c9_amended_normalization :
    normalize_style_id (.str (s2l "STY123")) = s2l "sty123" ∧
    normalize_style_id (.str (s2l " sty123 ")) = s2l "sty123" ∧
    normalize_style_id (.num 123 0) = s2l "123" ∧
    normalize_style_id (.str (s2l "123.0")) = s2l "123" ∧
    normalize_style_id (.str (s2l "123")) = s2l "123" ∧
    normalize_style_id .null = [] := by
  refine ⟨by decide, by decide, by decide, by decide, by decide, by decide⟩

/-- C2 counterexample: the claim makes the New cutoff the configurable
new_age_days; with new_age_days = 90, orders = 5 and 70 days live, the
claimed classification is "New" but `calculate_status` (whose New cutoff
is the literal 60) yields "Active". -/
theorem c2_counterexample :
    calculate_status (some 0) 5 70 14 = "Active" ∧
    status_per_claim (some 0) 5 70 14 90 = "New" ∧
    ("Active" : String) ≠ "New" := by
  refine ⟨rfl, rfl, by decide⟩

/-- C2 amended: status precedence as claimed, with the New cutoff the
fixed constant 60 (the default of new_age_days; the configurable value is
not consulted): null first-order date gives Catalog-Only regardless of the
other fields; otherwise zero orders at or beyond zero_age gives Zero-Sale;
otherwise at most 60 days live gives New; otherwise positive orders gives
Active; otherwise Unknown. -/
theorem c2_status_precedence (fd : Option Int) (orders : Nat) (days zero_age : Int) :
    (fd = none → calculate_status fd orders days zero_age = "Catalog-Only") ∧
    (fd ≠ none → orders = 0 → days ≥ zero_age →
      calculate_status fd orders days zero_age = "Zero-Sale") ∧
    (fd ≠ none → ¬(orders = 0 ∧ days ≥ zero_age) → days ≤ 60 →
      calculate_status fd orders days zero_age = "New") ∧
    (fd ≠ none → ¬(orders = 0 ∧ days ≥ zero_age) → ¬(days ≤ 60) → orders > 0 →
      calculate_status fd orders days zero_age = "Active") ∧
    (fd ≠ none → ¬(orders = 0 ∧ days ≥ zero_age) → ¬(days ≤ 60) → orders = 0 →
      calculate_status fd orders days zero_age = "Unknown") := by
  cases fd with
  | none =>
    refine ⟨fun _ => rfl, ?_, ?_, ?_, ?_⟩ <;> (intro h; exact absurd rfl h)
  | some f =>
    refine ⟨fun h => by simp at h, ?_, ?_, ?_, ?_⟩
    · intro _ h1 h2
      unfold calculate_status; dsimp only; rw [if_pos ⟨h1, h2⟩]
    · intro _ h1 h2
      unfold calculate_status; dsimp only; rw [if_neg h1, if_pos h2]
    · intro _ h1 h2 h3
      unfold calculate_status; dsimp only; rw [if_neg h1, if_neg h2, if_pos h3]
    · intro _ h1 h2 h3
      unfold calculate_status; dsimp only
      rw [if_neg h1, if_neg h2, if_neg (by omega)]

/-- C2 witness: the amended precedence applied at concrete inputs: a style
first seen 20 days ago with no orders and zero_age 14 is Zero-Sale, and a
style with no first-order date is Catalog-Only. -/
theorem c2_status_precedence_witness :
    calculate_status (some 0) 0 20 14 = "Zero-Sale" ∧
    calculate_status none 3 10 14 = "Catalog-Only" :=
  ⟨(c2_status_precedence (some 0) 0 20 14).2.1 (by simp) rfl (by norm_num),
   (c2_status_precedence none 3 10 14).1 rfl⟩

/-- C6: momentum is the relative change when the previous window had
orders, 1 when starting from zero with recent orders, 0 when both are
zero, and for the claimed input (previous 0, recent 5, min orders at most
5) the tag is STARTED unless the NEW rule fires first on style age. -/
theorem c6_momentum_and_started (r p : Nat) :
    (0 < p → calculate_momentum r p = ((r : ℚ) - (p : ℚ)) / (p : ℚ)) ∧
    (p = 0 → 0 < r → calculate_momentum r p = 1) ∧
    (p = 0 → r = 0 → calculate_momentum r p = 0) ∧
    (∀ (age new_age : Int) (min_orders : Nat), min_orders ≤ 5 →
      calculate_watchlist_tag 5 0 (calculate_momentum 5 0) age new_age min_orders =
        if age ≤ new_age then "NEW" else "STARTED") := by
  refine ⟨?_, ?_, ?_, ?_⟩
  · intro hp; unfold calculate_momentum; rw [if_neg (by omega)]
  · intro hp hr; unfold calculate_momentum; rw [if_pos hp, if_pos hr]
  · intro hp hr; unfold calculate_momentum; rw [if_pos hp, if_neg (by omega)]
  · intro age new_age min_orders hmin
    unfold calculate_watchlist_tag
    by_cases hage : age ≤ new_age
    · rw [if_pos hage, if_pos hage]
    · rw [if_neg hage, if_neg hage, if_pos ⟨by omega, rfl⟩]

/-- C6 witness: the momentum equations and the STARTED versus NEW
precedence applied at concrete inputs (an aged style gets STARTED, a young
style gets NEW). -/
theorem c6_momentum_and_started_witness :
    calculate_momentum 10 5 = ((10 : ℚ) - (5 : ℚ)) / (5 : ℚ) ∧
    calculate_momentum 5 0 = 1 ∧
    calculate_watchlist_tag 5 0 (calculate_momentum 5 0) 100 60 3 =
      (if (100 : Int) ≤ 60 then "NEW" else "STARTED") ∧
    calculate_watchlist_tag 5 0 (calculate_momentum 5 0) 30 60 3 =
      (if (30 : Int) ≤ 60 then "NEW" else "STARTED") :=
  ⟨(c6_momentum_and_started 10 5).1 (by norm_num),
   (c6_momentum_and_started 5 0).2.1 rfl (by norm_num),
   (c6_momentum_and_started 5 0).2.2.2 100 60 3 (by norm_num),
   (c6_momentum_and_started 5 0).2.2.2 30 60 3 (by norm_num)⟩

/-- C4 counterexample: the source KPI filter has no upper endpoint, so a
sales record dated five days after today is counted by
`calculate_kpis_total_orders`, while the claimed closed-interval count
excludes it. -/
theorem c4_counterexample :
    calculate_kpis_total_orders [⟨some 5, [], 1, 0⟩] 0 30 = 1 ∧
    claim_total_orders [⟨some 5, [], 1, 0⟩] 0 30 = 0 := by
  refine ⟨by decide, by decide⟩

/-- C4 amended: TotalOrders(window) counts the records with
OrderDate at or after today minus window, with no upper endpoint (so
future-dated records are counted); when no record is future-dated this
equals the claimed closed-interval count, and for dates 40, 10 and 5 days
before today with window 30 the count is 2. -/
theorem c4_total_orders (sales : List SalesRow) (today w : Int) :
    ((∀ r ∈ sales, ∀ d, r.orderDate = some d → d ≤ today) →
      calculate_kpis_total_orders sales today w = claim_total_orders sales today w) ∧
    calculate_kpis_total_orders
      [⟨some (today - 40), [], 1, 0⟩, ⟨some (today - 10), [], 1, 0⟩,
        ⟨some (today - 5), [], 1, 0⟩] today 30 = 2 := by
  constructor
  · intro h
    unfold calculate_kpis_total_orders claim_total_orders
    congr 1
    apply List.filter_congr
    intro r hr
    cases hd : r.orderDate with
    | none => rfl
    | some d =>
      have hdt := h r hr d hd
      rw [decide_eq_decide]
      exact ⟨fun h1 => ⟨h1, hdt⟩, fun h1 => h1.1⟩
  · unfold calculate_kpis_total_orders
    have h1 : (decide (today - 30 ≤ today - 40)) = false := by
      simp only [decide_eq_false_iff_not]; omega
    have h2 : (decide (today - 30 ≤ today - 10)) = true := by
      simp only [decide_eq_true_eq]; omega
    have h3 : (decide (today - 30 ≤ today - 5)) = true := by
      simp only [decide_eq_true_eq]; omega
    simp only [List.filter, h1, h2, h3]
    rfl

/-- C4 witness: the amended equivalence applied at a concrete
future-free table, and the concrete three-date example. -/
theorem c4_total_orders_witness :
    calculate_kpis_total_orders [⟨some (-40), [], 1, 0⟩, ⟨some (-10), [], 1, 0⟩] 0 30 =
      claim_total_orders [⟨some (-40), [], 1, 0⟩, ⟨some (-10), [], 1, 0⟩] 0 30 ∧
    calculate_kpis_total_orders
      [⟨some ((0 : Int) - 40), [], 1, 0⟩, ⟨some ((0 : Int) - 10), [], 1, 0⟩,
        ⟨some ((0 : Int) - 5), [], 1, 0⟩] 0 30 = 2 :=
  ⟨(c4_total_orders [⟨some (-40), [], 1, 0⟩, ⟨some (-10), [], 1, 0⟩] 0 30).1
      (by
        intro r hr d hd
        simp only [List.mem_cons, List.mem_singleton] at hr
        rcases hr with rfl | rfl | h
        · injection hd with h; omega
        · injection hd with h; omega
        · simp at h),
   (c4_total_orders [] 0 30).2⟩

/-- C3 counterexample: `DataImporters.import_sales_csv` on a table with a
quantity-like column ("Qty") takes NetUnits from that column: a row with
quantity 5 imports with NetUnits 5, not 1, so NetUnits is not
unconditionally 1 across the sales importers. -/
theorem c3_counterexample :
    (import_sales_csv [s2l "Order Date", s2l "Style ID", s2l "Qty"]
        [[Cell.date 0, Cell.str (s2l "a"), Cell.num 5 0]]).map
      (fun l => l.map SalesRow.netUnits) = .ok [(5 : ℚ)] ∧ (5 : ℚ) ≠ 1 := by
  have hd : detectSalesDateCol [s2l "Order Date", s2l "Style ID", s2l "Qty"] = some 0 := by
    decide
  have hs : detectSalesStyleCol [s2l "Order Date", s2l "Style ID", s2l "Qty"] = some 1 := by
    decide
  have hq : firstColMatching salesQtyCands [s2l "Order Date", s2l "Style ID", s2l "Qty"] =
      some 2 := by decide
  have hp : firstColMatching salesPriceCands [s2l "Order Date", s2l "Style ID", s2l "Qty"] =
      none := by decide
  have hg : detectGmvCol [s2l "Order Date", s2l "Style ID", s2l "Qty"] = none := by decide
  have hc : cellAt [Cell.date 0, Cell.str (s2l "a"), Cell.num 5 0] 2 = Cell.num 5 0 := by
    decide
  constructor
  · unfold import_sales_csv
    rw [hd, hs, hq, hp, hg]
    dsimp only [Except.map, List.map, mkSalesRow]
    rw [hc]
    dsimp only [parseCellNum, Option.getD]
    norm_num
  · norm_num

/-- C3 amended: NetUnits is 1 unconditionally in the ProjectMProcessor
sales importer (the one the application calls); the DataImporters variant
instead takes NetUnits from a detected quantity-like column and is 1 only
when no such column is detected (or the value fails to parse). -/
theorem c3_netunits (headers : List Str) (rows : List (List Cell))
    (out : List SalesRow) :
    (pm_import_sales_csv headers rows = .ok out → ∀ r ∈ out, r.netUnits = 1) ∧
    (firstColMatching salesQtyCands headers = none →
      import_sales_csv headers rows = .ok out → ∀ r ∈ out, r.netUnits = 1) := by
  constructor
  · intro h r hr
    unfold pm_import_sales_csv at h
    cases hd : exactMatchIdx salesDateCands headers with
    | none => rw [hd] at h; exact absurd h (by simp)
    | some di =>
      cases hs : exactMatchIdx salesStyleCands headers with
      | none => rw [hd, hs] at h; exact absurd h (by simp)
      | some si =>
        rw [hd, hs] at h
        dsimp only at h
        injection h with h
        subst h
        rcases List.mem_map.mp hr with ⟨row, _, rfl⟩
        rfl
  · intro hq h r hr
    unfold import_sales_csv at h
    cases hd : detectSalesDateCol headers with
    | none => rw [hd] at h; exact absurd h (by simp)
    | some di =>
      cases hs : detectSalesStyleCol headers with
      | none => rw [hd, hs] at h; exact absurd h (by simp)
      | some si =>
        rw [hd, hs, hq] at h
        dsimp only at h
        injection h with h
        subst h
        rcases List.mem_map.mp hr with ⟨row, _, rfl⟩
        rfl

/-- C3 witness: the ProjectM importer on a concrete table yields NetUnits
1 for its row. -/
theorem c3_netunits_witness :
    pm_import_sales_csv [s2l "Order Date", s2l "Style ID"]
        [[Cell.date 0, Cell.str (s2l "a")]] =
      .ok [{ orderDate := some 0, styleKey := s2l "a", netUnits := 1, netGMV := 0 }] ∧
    ({ orderDate := some 0, styleKey := s2l "a", netUnits := 1,
        netGMV := 0 } : SalesRow).netUnits = 1 := by
  have himp : pm_import_sales_csv [s2l "Order Date", s2l "Style ID"]
      [[Cell.date 0, Cell.str (s2l "a")]] =
      .ok [{ orderDate := some 0, styleKey := s2l "a", netUnits := 1, netGMV := 0 }] := by
    rfl
  exact ⟨himp,
    (c3_netunits [s2l "Order Date", s2l "Style ID"] [[Cell.date 0, Cell.str (s2l "a")]]
      [{ orderDate := some 0, styleKey := s2l "a", netUnits := 1, netGMV := 0 }]).1
      himp _ (by simp)⟩

/-- C7: a sales or returns import fails (the MissingRequiredColumn
condition) exactly when the date role or the style role cannot be
resolved from the headers, and the failure aborts the whole table; when
both roles resolve, the import succeeds and converts every input row to
exactly one record through the per-row transform, in which an unparseable
date degrades to null and an unparseable number to its default, never
aborting the import. -/
theorem c7_import_error_iff (headers : List Str) (rows : List (List Cell)) :
    ((∃ e, import_sales_csv headers rows = .error e) ↔
      (detectSalesDateCol headers = none ∨ detectSalesStyleCol headers = none)) ∧
    (∀ di si, detectSalesDateCol headers = some di →
      detectSalesStyleCol headers = some si →
      import_sales_csv headers rows =
        .ok (rows.map (mkSalesRow di si (firstColMatching salesQtyCands headers)
          (firstColMatching salesPriceCands headers) (detectGmvCol headers))) ∧
      ∀ out, import_sales_csv headers rows = .ok out → out.length = rows.length) ∧
    ((∃ e, import_returns_csv headers rows = .error e) ↔
      (firstColMatching returnsDateCands headers = none ∨
        firstColMatching returnsStyleCands headers = none)) ∧
    (∀ di si, firstColMatching returnsDateCands headers = some di →
      firstColMatching returnsStyleCands headers = some si →
      import_returns_csv headers rows =
        .ok (rows.map (mkReturnRow di si (firstColMatching returnsQtyCands headers)
          (detectReturnsTypeCol headers))) ∧
      ∀ out, import_returns_csv headers rows = .ok out → out.length = rows.length) := by
  refine ⟨?_, ?_, ?_, ?_⟩
  · unfold import_sales_csv
    cases hd : detectSalesDateCol headers with
    | none => simp
    | some di =>
      cases hs : detectSalesStyleCol headers with
      | none => simp
      | some si => simp
  · intro di si hd hs
    unfold import_sales_csv
    rw [hd, hs]
    refine ⟨rfl, ?_⟩
    intro out h
    dsimp only at h
    injection h with h
    subst h
    simp
  · unfold import_returns_csv
    cases hd : firstColMatching returnsDateCands headers with
    | none => simp
    | some di =>
      cases hs : firstColMatching returnsStyleCands headers with
      | none => simp
      | some si => simp
  · intro di si hd hs
    unfold import_returns_csv
    rw [hd, hs]
    refine ⟨rfl, ?_⟩
    intro out h
    dsimp only at h
    injection h with h
    subst h
    simp

/-- C7 witness: a table with no style-like column aborts with the error,
and a well-formed table with one unparseable date and one unparseable
quantity still imports both rows, degrading only those fields. -/
theorem c7_import_error_iff_witness :
    (∃ e, import_sales_csv [s2l "Order Date"] [] = .error e) ∧
    import_returns_csv [s2l "Return Date", s2l "Style ID", s2l "Qty"]
        [[Cell.str (s2l "junk"), Cell.str (s2l "a"), Cell.str (s2l "bad")],
         [Cell.date 3, Cell.str (s2l "b"), Cell.num 2 0]] =
      .ok [{ returnDate := none, styleKey := s2l "a", unitsReturned := 1,
              returnType := s2l "(Unknown)" },
           { returnDate := some 3, styleKey := s2l "b", unitsReturned := (2 : ℚ) / 10 ^ 0,
              returnType := s2l "(Unknown)" }] := by
  constructor
  · exact (c7_import_error_iff [s2l "Order Date"] []).1.mpr (by right; decide)
  · exact ((c7_import_error_iff [s2l "Return Date", s2l "Style ID", s2l "Qty"]
      [[Cell.str (s2l "junk"), Cell.str (s2l "a"), Cell.str (s2l "bad")],
       [Cell.date 3, Cell.str (s2l "b"), Cell.num 2 0]]).2.2.2 0 1 (by decide)
      (by decide)).1

theorem uniqueFirstAux_mem [DecidableEq α] (l : List α) :
    ∀ (seen : List α) (x : α), x ∈ uniqueFirstAux seen l ↔ (x ∈ l ∧ x ∉ seen) := by
  induction l with
  | nil => intro seen x; simp [uniqueFirstAux]
  | cons a t ih =>
    intro seen x
    unfold uniqueFirstAux
    by_cases ha : a ∈ seen
    · rw [if_pos ha, ih]
      constructor
      · exact fun h => ⟨List.mem_cons_of_mem a h.1, h.2⟩
      · rintro ⟨h1, h2⟩
        rcases List.mem_cons.mp h1 with rfl | h1
        · exact absurd ha h2
        · exact ⟨h1, h2⟩
    · rw [if_neg ha]
      constructor
      · intro h
        rcases List.mem_cons.mp h with rfl | h
        · exact ⟨List.mem_cons_self x t, ha⟩
        · have := (ih (a :: seen) x).mp h
          exact ⟨List.mem_cons_of_mem a this.1,
            fun hx => this.2 (List.mem_cons_of_mem a hx)⟩
      · rintro ⟨h1, h2⟩
        by_cases hxa : x = a
        · subst hxa; exact List.mem_cons_self x _
        · rcases List.mem_cons.mp h1 with rfl | h1
          · exact absurd rfl hxa
          · exact List.mem_cons_of_mem a ((ih (a :: seen) x).mpr
              ⟨h1, by simp [hxa, h2]⟩)

theorem uniqueFirstAux_nodup [DecidableEq α] (l : List α) :
    ∀ seen : List α, (uniqueFirstAux seen l).Nodup := by
  induction l with
  | nil => intro seen; simp [uniqueFirstAux]
  | cons a t ih =>
    intro seen
    unfold uniqueFirstAux
    by_cases ha : a ∈ seen
    · rw [if_pos ha]; exact ih seen
    · rw [if_neg ha]
      refine List.nodup_cons.mpr ⟨?_, ih (a :: seen)⟩
      intro hmem
      exact ((uniqueFirstAux_mem t (a :: seen) a).mp hmem).2 (List.mem_cons_self a seen)

theorem uniqueFirst_mem [DecidableEq α] (l : List α) (x : α) :
    x ∈ uniqueFirst l ↔ x ∈ l := by
  unfold uniqueFirst
  rw [uniqueFirstAux_mem]
  simp

theorem uniqueFirst_nodup [DecidableEq α] (l : List α) : (uniqueFirst l).Nodup :=
  uniqueFirstAux_nodup l []

theorem uniqueFirst_eq_nil [DecidableEq α] (l : List α) :
    uniqueFirst l = [] ↔ l = [] := by
  cases l with
  | nil => simp [uniqueFirst, uniqueFirstAux]
  | cons a t =>
    simp only [uniqueFirst, uniqueFirstAux]
    rw [if_neg (by simp)]
    simp

/-- C1 counterexample: with a catalog whose raw identifiers "STY123" and
" sty123 " both normalise to "sty123", the master table has two rows for
that StyleKey (the source deduplicates raw values before normalising);
and a style observed only in sales ("zzz") gets no row at all when a
catalog is present, so neither uniqueness nor the claimed catalog-union-
sales coverage holds. -/
theorem c1_counterexample :
    (build_master_table (some [Cell.str (s2l "STY123"), Cell.str (s2l " sty123 ")])
        (some [⟨some 0, s2l "zzz", 1, 0⟩]) [] 0 14 0).map MasterRow.styleKey =
      [s2l "sty123", s2l "sty123"] ∧
    s2l "zzz" ∈ ([⟨some 0, s2l "zzz", 1, 0⟩] : List SalesRow).map SalesRow.styleKey ∧
    s2l "zzz" ∉
      (build_master_table (some [Cell.str (s2l "STY123"), Cell.str (s2l " sty123 ")])
        (some [⟨some 0, s2l "zzz", 1, 0⟩]) [] 0 14 0).map MasterRow.styleKey := by
  refine ⟨by decide, by decide, by decide⟩

/-- C1 amended: with no catalog, the master table has exactly one row per
distinct StyleKey observed in sales (keys are deduplicated, without
repetition, and cover exactly the sales keys); with a catalog, it has one
row per distinct raw catalog identifier, keyed by its normalisation —
distinct raw identifiers normalising alike yield several rows with the
same StyleKey, and sales-only keys are absent. -/
theorem c1_master_universe (sales : List SalesRow) (returns : List ReturnRow)
    (today zero_age : Int) (hr : ℚ) :
    ((build_master_table none (some sales) returns today zero_age hr).map
        MasterRow.styleKey = uniqueFirst (sales.map SalesRow.styleKey) ∧
      ((build_master_table none (some sales) returns today zero_age hr).map
        MasterRow.styleKey).Nodup ∧
      ∀ k, k ∈ (build_master_table none (some sales) returns today zero_age hr).map
          MasterRow.styleKey ↔ k ∈ sales.map SalesRow.styleKey) ∧
    ∀ cat : List Cell, cat.filter (fun v => v ≠ Cell.null) ≠ [] →
      (build_master_table (some cat) (some sales) returns today zero_age hr).map
          MasterRow.styleKey =
        (uniqueFirst (cat.filter (fun v => v ≠ Cell.null))).map
          (fun v => normalize_style_id (cellPy v)) := by
  have hkeys : (build_master_table none (some sales) returns today zero_age hr).map
      MasterRow.styleKey = uniqueFirst (sales.map SalesRow.styleKey) := by
    unfold build_master_table
    simp only [List.isEmpty_nil, if_true]
    rw [List.map_map, List.map_map]
    conv_rhs => rw [← List.map_id (uniqueFirst (sales.map SalesRow.styleKey))]
    exact List.map_congr_left (fun a _ => rfl)
  refine ⟨⟨hkeys, ?_, ?_⟩, ?_⟩
  · rw [hkeys]; exact uniqueFirst_nodup _
  · intro k; rw [hkeys]; exact uniqueFirst_mem _ k
  · intro cat hcat
    unfold build_master_table
    dsimp only
    have hne : ¬((uniqueFirst (cat.filter (fun v => v ≠ Cell.null))).map
        (fun v => (cellPy v, normalize_style_id (cellPy v)))).isEmpty = true := by
      simp only [List.isEmpty_iff, List.map_eq_nil_iff]
      rw [uniqueFirst_eq_nil]
      exact hcat
    rw [if_neg hne, List.map_map, List.map_map]
    exact List.map_congr_left (fun a _ => rfl)

/-- C1 witness: the amended universe description applied to a concrete
sales-only table and to a concrete one-entry catalog. -/
theorem c1_master_universe_witness :
    ((build_master_table none (some [⟨some 0, s2l "a", 1, 0⟩]) [] 0 14 0).map
        MasterRow.styleKey =
      uniqueFirst (([⟨some 0, s2l "a", 1, 0⟩] : List SalesRow).map SalesRow.styleKey)) ∧
    ((build_master_table none (some [⟨some 0, s2l "a", 1, 0⟩]) [] 0 14 0).map
      MasterRow.styleKey).Nodup ∧
    (s2l "a" ∈ (build_master_table none (some [⟨some 0, s2l "a", 1, 0⟩]) [] 0 14 0).map
        MasterRow.styleKey ↔
      s2l "a" ∈ ([⟨some 0, s2l "a", 1, 0⟩] : List SalesRow).map SalesRow.styleKey) ∧
    (build_master_table (some [Cell.str (s2l "X")])
        (some [⟨some 0, s2l "a", 1, 0⟩]) [] 0 14 0).map MasterRow.styleKey =
      (uniqueFirst ([Cell.str (s2l "X")].filter (fun v => v ≠ Cell.null))).map
        (fun v => normalize_style_id (cellPy v)) :=
  ⟨(c1_master_universe [⟨some 0, s2l "a", 1, 0⟩] [] 0 14 0).1.1,
   (c1_master_universe [⟨some 0, s2l "a", 1, 0⟩] [] 0 14 0).1.2.1,
   (c1_master_universe [⟨some 0, s2l "a", 1, 0⟩] [] 0 14 0).1.2.2 (s2l "a"),
   (c1_master_universe [⟨some 0, s2l "a", 1, 0⟩] [] 0 14 0).2
     [Cell.str (s2l "X")] (by decide)⟩

/-- C5: for every style with at least one sale in the lookback window,
the emitted forecast row satisfies GrossForecast = AvgDailySales x
event_days x traffic_multiplier, scaled by (1 + clamp(momentum, -0.3,
0.5)) exactly when momentum adjustment is enabled; NetForecast =
GrossForecast x (1 - return_rate); SafetyStock = 1.28 x
sqrt(GrossForecast); and TotalRequired = ceil(NetForecast +
SafetyStock). -/
theorem c5_forecast_formulas (sales : List SalesRow) (momentumOf : PyVal → Option ℝ)
    (lookback : Nat) (ed tm rr : ℝ) (um : Bool) (today : Int) (s : PyVal × Str)
    (h : (forecast_window_sales sales today lookback s.2).isEmpty = false) :
    forecast_row sales momentumOf lookback ed tm rr um today s =
      some { styleId := s.1
             avgDaily := ((forecast_window_sales sales today lookback s.2).length : ℝ) /
               (lookback : ℝ)
             grossForecast :=
               if um then
                 ((forecast_window_sales sales today lookback s.2).length : ℝ) /
                     (lookback : ℝ) * ed * tm *
                   (1 + max (min ((momentumOf s.1).getD 0) 0.5) (-0.3))
               else
                 ((forecast_window_sales sales today lookback s.2).length : ℝ) /
                   (lookback : ℝ) * ed * tm
             netForecast :=
               (if um then
                 ((forecast_window_sales sales today lookback s.2).length : ℝ) /
                     (lookback : ℝ) * ed * tm *
                   (1 + max (min ((momentumOf s.1).getD 0) 0.5) (-0.3))
               else
                 ((forecast_window_sales sales today lookback s.2).length : ℝ) /
                   (lookback : ℝ) * ed * tm) * (1 - rr)
             safetyStock :=
               1.28 * Real.sqrt
                 (if um then
                   ((forecast_window_sales sales today lookback s.2).length : ℝ) /
                       (lookback : ℝ) * ed * tm *
                     (1 + max (min ((momentumOf s.1).getD 0) 0.5) (-0.3))
                 else
                   ((forecast_window_sales sales today lookback s.2).length : ℝ) /
                     (lookback : ℝ) * ed * tm)
             totalRequired :=
               ⌈(if um then
                   ((forecast_window_sales sales today lookback s.2).length : ℝ) /
                       (lookback : ℝ) * ed * tm *
                     (1 + max (min ((momentumOf s.1).getD 0) 0.5) (-0.3))
                 else
                   ((forecast_window_sales sales today lookback s.2).length : ℝ) /
                     (lookback : ℝ) * ed * tm) * (1 - rr) +
                 1.28 * Real.sqrt
                   (if um then
                     ((forecast_window_sales sales today lookback s.2).length : ℝ) /
                         (lookback : ℝ) * ed * tm *
                       (1 + max (min ((momentumOf s.1).getD 0) 0.5) (-0.3))
                   else
                     ((forecast_window_sales sales today lookback s.2).length : ℝ) /
                       (lookback : ℝ) * ed * tm)⌉ } := by
  cases um with
  | false =>
    unfold forecast_row
    dsimp only
    rw [if_neg (by simp [h])]
    rfl
  | true =>
    unfold forecast_row
    dsimp only
    rw [if_neg (by simp [h])]
    rfl

/-- C5 witness: the forecast formulas applied to a concrete style with one
sale in the window (momentum adjustment off, zero event days). -/
theorem c5_forecast_formulas_witness :
    (forecast_window_sales [⟨some 0, s2l "a", 1, 0⟩] 0 30 (s2l "a")).isEmpty = false ∧
    forecast_row [⟨some 0, s2l "a", 1, 0⟩] (fun _ => none) 30 0 1 0 false 0
        (PyVal.str (s2l "a"), s2l "a") =
      some { styleId := PyVal.str (s2l "a")
             avgDaily := ((forecast_window_sales [⟨some 0, s2l "a", 1, 0⟩] 0 30
               (s2l "a")).length : ℝ) / ((30 : Nat) : ℝ)
             grossForecast := ((forecast_window_sales [⟨some 0, s2l "a", 1, 0⟩] 0 30
               (s2l "a")).length : ℝ) / ((30 : Nat) : ℝ) * 0 * 1
             netForecast := (((forecast_window_sales [⟨some 0, s2l "a", 1, 0⟩] 0 30
               (s2l "a")).length : ℝ) / ((30 : Nat) : ℝ) * 0 * 1) * (1 - 0)
             safetyStock := 1.28 * Real.sqrt
               (((forecast_window_sales [⟨some 0, s2l "a", 1, 0⟩] 0 30
                 (s2l "a")).length : ℝ) / ((30 : Nat) : ℝ) * 0 * 1)
             totalRequired := ⌈(((forecast_window_sales [⟨some 0, s2l "a", 1, 0⟩] 0 30
                 (s2l "a")).length : ℝ) / ((30 : Nat) : ℝ) * 0 * 1) * (1 - 0) +
               1.28 * Real.sqrt
                 (((forecast_window_sales [⟨some 0, s2l "a", 1, 0⟩] 0 30
                   (s2l "a")).length : ℝ) / ((30 : Nat) : ℝ) * 0 * 1)⌉ } :=
  ⟨rfl, c5_forecast_formulas [⟨some 0, s2l "a", 1, 0⟩] (fun _ => none) 30 0 1 0 false 0
    (PyVal.str (s2l "a"), s2l "a") rfl⟩

/-- C10: the claim describes the rows of the returns-split analysis, but
the source can never emit one: `build_returns_type_split` reads
`style_row["StyleKey"]` on each master row (line 453) while the master
rows emitted at lines 292 to 305 carry no StyleKey column, so with any
non-empty master table the build aborts with KeyError on its first row,
and with an empty master it returns an empty table. -/
theorem c10_split_keyerror (master : List MasterRow) (returns : List ReturnRow)
    (today w : Int) :
    (master ≠ [] →
      build_returns_type_split master returns today w = .error "KeyError: StyleKey") ∧
    build_returns_type_split [] returns today w = .ok [] := by
  constructor
  · intro h
    cases master with
    | nil => exact absurd rfl h
    | cons m rest =>
      show build_returns_split_aux returns today w (m :: rest) = _
      rw [build_returns_split_aux,
        show masterRowStyleKey? m = none from rfl]
  · rfl

/-- C10 witness: the abort applied at a concrete pipeline state — the
master table built from one sales row of style "a" is non-empty, and the
returns split over it and a matching returns row aborts with the
KeyError instead of emitting a row. -/
theorem c10_split_keyerror_witness :
    build_master_table none (some [⟨some 0, s2l "a", 1, 0⟩]) [] 0 14 0 ≠ [] ∧
    build_returns_type_split
        (build_master_table none (some [⟨some 0, s2l "a", 1, 0⟩]) [] 0 14 0)
        [⟨some 0, s2l "a", 1, s2l "RTO"⟩] 0 30 = .error "KeyError: StyleKey" :=
  ⟨by decide,
   (c10_split_keyerror
      (build_master_table none (some [⟨some 0, s2l "a", 1, 0⟩]) [] 0 14 0)
      [⟨some 0, s2l "a", 1, s2l "RTO"⟩] 0 30).1 (by decide)⟩
